import Mathlib

/-!
Shallow embedding of the `HybridRecommender` class from
`src/Recommender-snippet.ipynb` (a hybrid collaborative/content-based
recommender), together with theorems settling the specification claims.

Modelling conventions:
* Floating-point scores and ratings are modelled as rationals (`ℚ`); the
  arithmetic performed by the code (weighted sums) is exact.
* Python exceptions are modelled by `PyError` values carrying the Python
  exception class and message; fallible operations return `Except PyError _`.
* The trained SVD model (`surprise.SVD`) is opaque trained state; the only
  operation the code uses is `predict(user_id, item_id).est`, modelled as a
  function `Int → Int → ℚ`.  Likewise the fitted `TfidfVectorizer` and the
  TF-IDF matrix are opaque state that `recommend_items` never reads; the
  cosine-similarity matrix `cosine_sim` is modelled as a function on row and
  column positions.
* DataFrames are modelled as lists of typed rows, in row order.  `pandas`
  primitives used by the code (`unique`, slicing, `head`, `sort_values`,
  `merge`) are modelled by the `pd*`/`py*` definitions below, each with a
  comment stating the library semantics being embedded.
-/

/-- A row of the interactions CSV: `user_id`, `item_id`, `rating`
(lines 67, 69 of the source). -/
structure Interaction where
  user_id : Int
  item_id : Int
  rating : ℚ
deriving DecidableEq, Repr

/-- A row of the item-metadata CSV: `item_id`, `description` (lines 68, 70).
`_load_data` replaces null descriptions by `''` (line 75), so `description`
is a plain string here. -/
structure Item where
  item_id : Int
  description : String
deriving DecidableEq, Repr

/-- A Python exception, identified by its class and message.  The code itself
never defines exception classes; the ones below are the classes that can
escape the embedded code paths. -/
inductive PyError where
  | valueError (msg : String)
  | indexError (msg : String)
  | fileNotFoundError (msg : String)
deriving DecidableEq, Repr

/-- Decidable equality of fallible results, used to evaluate the concrete
witnesses below. -/
instance {ε α : Type} [DecidableEq ε] [DecidableEq α] : DecidableEq (Except ε α) :=
  fun a b =>
    match a, b with
    | .error e, .error e' =>
      if h : e = e' then .isTrue (by rw [h]) else .isFalse (by simp [h])
    | .ok v, .ok v' =>
      if h : v = v' then .isTrue (by rw [h]) else .isFalse (by simp [h])
    | .error _, .ok _ => .isFalse (by simp)
    | .ok _, .error _ => .isFalse (by simp)

/-- The trained `surprise.SVD` collaborative model, reduced to the single
operation the class uses: `self.cf_model.predict(user_id, iid).est`
(line 109). -/
structure CFModel where
  predict : Int → Int → ℚ

/-- Opaque fitted `TfidfVectorizer` state (line 90); it is stored and
serialized but never read by `recommend_items`. -/
structure TfidfVectorizer where
  vocabulary : List String

/-- Opaque TF-IDF document-term matrix (line 91); stored but never read by
`recommend_items`. -/
def TfidfMatrix : Type := List (List ℚ)

/-- The state of a constructed `HybridRecommender` instance.  The fields
mirror the attributes set in `__init__`/`_load_data`/`_init_*` (lines 36,
67-68, 83, 90-91, 95).  `interactions` and `tfidf_matrix` are `Option`s
because `load_model` (lines 150-155) rebuilds an instance *without* those
attributes. -/
structure Recommender where
  alpha : ℚ
  interactions : Option (List Interaction)
  item_data : List Item
  cf_model : CFModel
  tfidf : TfidfVectorizer
  tfidf_matrix : Option TfidfMatrix
  cosine_sim : Nat → Nat → ℚ

/-- `pandas.Series.unique` (line 106): the distinct values in order of first
appearance. -/
def pdUniqueAux (seen : List Int) : List Int → List Int
  | [] => []
  | a :: l => if a ∈ seen then pdUniqueAux seen l else a :: pdUniqueAux (a :: seen) l

/-- `pandas.Series.unique` (line 106). -/
def pdUnique (l : List Int) : List Int :=
  pdUniqueAux [] l

/-- Python list slice `l[1:stop]` (line 117, with `stop = n+1`): a negative
`stop` counts from the end, a `stop` past the end is clamped. -/
def pySliceFrom1 (l : List α) (stop : Int) : List α :=
  let s : Nat := if stop < 0 then ((l.length : Int) + stop).toNat else min stop.toNat l.length
  (l.take s).drop 1

/-- `DataFrame.head(n)` (line 131): the first `n` rows for `n ≥ 0`; for
`n < 0`, all rows but the last `|n|` (pandas semantics). -/
def pdHead (n : Int) (l : List α) : List α :=
  if 0 ≤ n then l.take n.toNat else l.take ((l.length : Int) + n).toNat

/-- Python `sorted(·, key=key, reverse=True)` (line 116): a stable sort,
descending in the key.  With `List.orderedInsert`, the relation
`key b ≤ key a` inserts each element after all strictly-greater keys and
before equal keys; since `insertionSort` inserts earlier list elements last,
equal-key elements keep their original relative order (stability). -/
def pySortedDescBy (key : α → ℚ) (l : List α) : List α :=
  List.insertionSort (fun a b => key b ≤ key a) l

/-- `DataFrame.sort_values(·, ascending=False)` (line 131): pandas implements
a descending sort by reversing an ascending argsort
(`pandas.core.sorting.nargsort`), so equal-key rows come out in *reversed*
row order.  The `kind` in the source is the default `'quicksort'`, which for
the small tied groups arising in the concrete inputs below coincides with the
stable ascending order used here. -/
def pdSortValuesDescBy (key : α → ℚ) (l : List α) : List α :=
  (List.insertionSort (fun a b => key a ≤ key b) l).reverse

/-- A row of the merged recommendations frame before the hybrid score is
attached (line 125): `cf_score`/`cb_score` are `none` when the outer join
left them `NaN`. -/
structure MergedRow where
  item_id : Int
  cf_score : Option ℚ
  cb_score : Option ℚ
deriving DecidableEq, Repr

/-- `pd.merge(cf_recs, cb_recs, on='item_id', how='outer')` (line 125):
one output row per matching left/right row pair, `NaN` (here `none`) for the
side that has no match.  pandas returns outer-join rows grouped by key with
the union of keys in sorted order; no theorem below depends on the key
order, only on the multiset of rows. -/
def outerMerge (left right : List (Int × ℚ)) : List MergedRow :=
  (List.insertionSort (fun a b => a ≤ b)
    (pdUnique (left.map Prod.fst ++ right.map Prod.fst))).flatMap (fun k =>
    if (left.filter (fun p => p.1 == k)).isEmpty then
      (right.filter (fun p => p.1 == k)).map (fun p =>
        { item_id := k, cf_score := none, cb_score := some p.2 })
    else if (right.filter (fun p => p.1 == k)).isEmpty then
      (left.filter (fun p => p.1 == k)).map (fun p =>
        { item_id := k, cf_score := some p.2, cb_score := none })
    else
      (left.filter (fun p => p.1 == k)).flatMap (fun lp =>
        (right.filter (fun p => p.1 == k)).map (fun rp =>
          { item_id := k, cf_score := some lp.2, cb_score := some rp.2 })))

/-- A row of the `recommendations` frame after the hybrid score is computed
(lines 126-130).  In the no-content branch (lines 129-130) the frame has no
`cb_score` column at all; this is modelled as `cb_score = none`. -/
structure RecRow where
  item_id : Int
  cf_score : Option ℚ
  cb_score : Option ℚ
  hybrid_score : ℚ
deriving DecidableEq, Repr

/-- A row of the returned DataFrame (line 132): the recommendation columns
joined with the catalog metadata (`description`). -/
structure OutRow where
  item_id : Int
  cf_score : Option ℚ
  cb_score : Option ℚ
  hybrid_score : ℚ
  description : String
deriving DecidableEq, Repr

/-- Lines 113-120: the content-based lookup for a seed `item_id`.
`idx` is the first catalog position whose `item_id` matches; Python's
`.tolist()[0]` raises `IndexError: list index out of range` when there is no
match.  `sim_scores` enumerates the seed's similarity row, is stably sorted
descending by score, and sliced `[1:n+1]`; the surviving `(position, score)`
pairs are mapped back to catalog `item_id`s. -/
def cbRecs (r : Recommender) (item_id : Int) (n : Int) : Except PyError (List (Int × ℚ)) :=
  match List.findIdx? (fun it => it.item_id == item_id) r.item_data with
  | none => .error (.indexError "list index out of range")
  | some idx =>
    let sim_scores := (List.range r.item_data.length).map (fun j => (j, r.cosine_sim idx j))
    let sorted := pySortedDescBy (fun p => p.2) sim_scores
    let top := pySliceFrom1 sorted (n + 1)
    .ok (top.map (fun p => ((r.item_data.getD p.1 { item_id := 0, description := "" }).item_id, p.2)))

/-- Lines 113-122: `cb_recs` is the content-based frame when a seed is given,
and an empty frame (`[]`) when `item_id is None`. -/
def cbExcept (r : Recommender) (item_id : Option Int) (n : Int) :
    Except PyError (List (Int × ℚ)) :=
  match item_id with
  | some iid => cbRecs r iid n
  | none => .ok []

/-- Lines 106-111: collaborative predictions for every distinct catalog
item. -/
def cfRecs (r : Recommender) (user_id : Int) : List (Int × ℚ) :=
  (pdUnique (r.item_data.map Item.item_id)).map (fun iid => (iid, r.cf_model.predict user_id iid))

/-- Lines 124-130: combine the two score frames.  If `cb_recs` is nonempty,
outer-join and set `hybrid_score = alpha * cf_score.fillna(0) +
(1 - alpha) * cb_score.fillna(0)`; otherwise the recommendations are
`cf_recs` with `hybrid_score = cf_score` (and no `cb_score` column). -/
def combineRecs (r : Recommender) (cf_recs cb_recs : List (Int × ℚ)) : List RecRow :=
  if cb_recs.isEmpty then
    cf_recs.map (fun p =>
      { item_id := p.1, cf_score := some p.2, cb_score := none, hybrid_score := p.2 })
  else
    (outerMerge cf_recs cb_recs).map (fun m =>
      { item_id := m.item_id, cf_score := m.cf_score, cb_score := m.cb_score,
        hybrid_score := r.alpha * m.cf_score.getD 0 + (1 - r.alpha) * m.cb_score.getD 0 })

/-- Lines 131-132: sort descending by `hybrid_score`, take the head, and
inner-join with the catalog metadata (an inner merge preserves the left
frame's row order; one output row per matching catalog row). -/
def finalRows (r : Recommender) (recs : List RecRow) (n : Int) : List OutRow :=
  (pdHead n (pdSortValuesDescBy (fun row => row.hybrid_score) recs)).flatMap (fun row =>
    (r.item_data.filter (fun it => it.item_id == row.item_id)).map (fun it =>
      { item_id := row.item_id, cf_score := row.cf_score, cb_score := row.cb_score,
        hybrid_score := row.hybrid_score, description := it.description }))

/-- `recommend_items` (lines 96-132). -/
def recommend_items (r : Recommender) (user_id : Int) (item_id : Option Int) (n : Int) :
    Except PyError (List OutRow) :=
  match cbExcept r item_id n with
  | .error e => .error e
  | .ok cb_recs => .ok (finalRows r (combineRecs r (cfRecs r user_id) cb_recs) n)

/-- `__init__` together with `_load_data`, `_init_collaborative_filtering`,
`_init_content_based_filtering` and `_calculate_similarity_matrix`
(lines 23-95), taking the already-parsed CSV tables.  The file-existence and
required-column checks of `_load_data` (lines 63-74) concern the raw CSV
schema and are satisfied by the typed tables; null descriptions are already
normalized to `""` (line 75).  The training calls are passed in as opaque
functions `fitCF` (SVD fit, lines 80-84), `fitTfidf` (lines 90-91) and
`simOf` (line 95).

Error behaviour embedded from the source:
* line 34: `if not 0 <= alpha <= 1: raise ValueError(...)` — this is the
  first statement of `__init__`, before any attribute is set and before
  `_setup_logging`, so nothing is initialized when it fires.
* lines 80-86 perform *no* rating-range validation: `Reader(rating_scale=
  (1, 5))` only records the scale, so out-of-range ratings train silently.
* an empty interaction table is rejected inside the `surprise` library:
  `train_test_split(data, test_size=0.25)` (line 82) raises
  `ValueError: test_size=0.25 should be less than the number of ratings 0`
  (modelled library behaviour); the class itself has no emptiness check.
  `_init_collaborative_filtering` (line 41) runs before
  `_init_content_based_filtering` (line 42), so this failure wins over any
  vectorizer failure.
* `TfidfVectorizer(stop_words='english').fit_transform` (line 91) itself
  raises `ValueError: empty vocabulary; perhaps the documents only contain
  stop words` when no description yields a non-stop token of two or more
  word characters (e.g. an empty catalog, or every description empty, a
  single letter, or a stop word).  `fitTfidf` is therefore fallible, and
  `__init__` only re-raises (lines 44-46), so the error propagates. -/
def HybridRecommender.init (interactions : List Interaction) (item_data : List Item)
    (alpha : ℚ) (fitCF : List Interaction → CFModel)
    (fitTfidf : List Item → Except PyError (TfidfVectorizer × TfidfMatrix))
    (simOf : TfidfMatrix → Nat → Nat → ℚ) : Except PyError Recommender :=
  if ¬ (0 ≤ alpha ∧ alpha ≤ 1) then
    .error (.valueError "Alpha must be between 0 and 1")
  else if interactions.isEmpty then
    .error (.valueError "test_size=0.25 should be less than the number of ratings 0")
  else
    match fitTfidf item_data with
    | .error e => .error e
    | .ok ftm =>
      .ok { alpha := alpha, interactions := some interactions, item_data := item_data,
            cf_model := fitCF interactions, tfidf := ftm.1, tfidf_matrix := some ftm.2,
            cosine_sim := simOf ftm.2 }

/-- The dict serialized by `save_model` (lines 136-142): `alpha`, `tfidf`,
`cf_model`, `cosine_sim`, `item_data` — and nothing else (in particular not
`interactions` and not `tfidf_matrix`). -/
structure ModelData where
  alpha : ℚ
  tfidf : TfidfVectorizer
  cf_model : CFModel
  cosine_sim : Nat → Nat → ℚ
  item_data : List Item

/-- `save_model` (lines 133-144).  `joblib.dump` is modelled as losslessly
recording the `model_data` dict; the file I/O itself is outside the
embedding. -/
def save_model (r : Recommender) : ModelData :=
  { alpha := r.alpha, tfidf := r.tfidf, cf_model := r.cf_model,
    cosine_sim := r.cosine_sim, item_data := r.item_data }

/-- `load_model` (lines 145-156): rebuilds an instance via `cls.__new__`
(no `__init__`, no training) and sets exactly the five saved attributes;
`interactions` and `tfidf_matrix` remain absent on the result. -/
def load_model (d : ModelData) : Recommender :=
  { alpha := d.alpha, interactions := none, item_data := d.item_data,
    cf_model := d.cf_model, tfidf := d.tfidf, tfidf_matrix := none,
    cosine_sim := d.cosine_sim }

/-! ### Concrete instances used by the witnesses and counterexamples below.

Each `cosine_sim` below is one a TF-IDF/linear-kernel pipeline can produce
for the given descriptions (identical descriptions give similarity 1, an
empty description gives an all-zero row, disjoint vocabulary gives 0). -/

/-- A single-item catalog with a constant collaborative predictor. -/
def exRec1 : Recommender :=
  { alpha := 1/2, interactions := some [⟨7, 1, 5⟩], item_data := [⟨1, "a"⟩],
    cf_model := ⟨fun _ _ => 4⟩, tfidf := ⟨["a"]⟩,
    tfidf_matrix := some ([[1]] : List (List ℚ)),
    cosine_sim := fun _ _ => 1 }

/-- Two items with disjoint descriptions and a constant collaborative
predictor, so the two hybrid scores tie. -/
def exRec9 : Recommender :=
  { alpha := 1/2, interactions := some [⟨7, 1, 5⟩], item_data := [⟨1, "a"⟩, ⟨2, "b"⟩],
    cf_model := ⟨fun _ _ => 3⟩, tfidf := ⟨["a", "b"]⟩,
    tfidf_matrix := some ([[1, 0], [0, 1]] : List (List ℚ)),
    cosine_sim := fun i j => if i = j then 1 else 0 }

/-- Item 2 has an empty description, so its TF-IDF vector and hence its whole
similarity row (including its self-similarity) are zero. -/
def exRec3 : Recommender :=
  { alpha := 1/2, interactions := some [⟨7, 1, 5⟩],
    item_data := [⟨1, "space adventure"⟩, ⟨2, ""⟩],
    cf_model := ⟨fun _ _ => 3⟩, tfidf := ⟨["adventure", "space"]⟩,
    tfidf_matrix := some ([[1, 0], [0, 0]] : List (List ℚ)),
    cosine_sim := fun i j => if i = 0 ∧ j = 0 then 1 else 0 }

/-- Two items with a collaborative predictor that returns the item id, making
the collaborative predictions observable in the output. -/
def exRec10 : Recommender :=
  { alpha := 1/2, interactions := some [⟨7, 1, 5⟩], item_data := [⟨1, "a"⟩, ⟨2, "b"⟩],
    cf_model := ⟨fun _ i => (i : ℚ)⟩, tfidf := ⟨["a", "b"]⟩,
    tfidf_matrix := some ([[1, 0], [0, 1]] : List (List ℚ)),
    cosine_sim := fun i j => if i = j then 1 else 0 }

/-- A constant stand-in for the opaque SVD training call. -/
def fitCFConst : List Interaction → CFModel := fun _ => ⟨fun _ _ => 3⟩

/-- Stand-in for the TF-IDF fitting call on the one-item catalog
`[⟨1, "space adventure"⟩]`: the description tokenizes to the nonempty
vocabulary {adventure, space}, so the real `fit_transform` succeeds (with a
single unit row). -/
def fitTfidfSpace : List Item → Except PyError (TfidfVectorizer × TfidfMatrix) :=
  fun _ => .ok (⟨["adventure", "space"]⟩, ([[1]] : List (List ℚ)))

/-- Stand-in for the TF-IDF fitting call on a catalog with no tokenizable
non-stop description (such as `[⟨1, "a"⟩]`, whose single character is not
even a token): the real `fit_transform` raises this `ValueError`. -/
def fitTfidfEmptyVocab : List Item → Except PyError (TfidfVectorizer × TfidfMatrix) :=
  fun _ => .error (.valueError "empty vocabulary; perhaps the documents only contain stop words")

/-- A trivial stand-in for the opaque linear-kernel call. -/
def simOfTriv : TfidfMatrix → Nat → Nat → ℚ := fun _ _ _ => 0

/-- Descending-by-score order with ties broken by ascending position: the
order produced by Python's stable descending sort on an enumerated
similarity row. -/
def simLex (a b : Nat × ℚ) : Prop :=
  b.2 < a.2 ∨ (a.2 = b.2 ∧ a.1 < b.1)

/-! ### Helper lemmas -/

theorem mem_pdUniqueAux {x : Int} : ∀ {seen l : List Int},
    x ∈ pdUniqueAux seen l ↔ x ∈ l ∧ x ∉ seen := by
  intro seen l
  induction l generalizing seen with
  | nil => simp [pdUniqueAux]
  | cons a l ih =>
    by_cases ha : a ∈ seen
    · simp only [pdUniqueAux, if_pos ha, ih, List.mem_cons]
      constructor
      · rintro ⟨hx, hs⟩
        exact ⟨Or.inr hx, hs⟩
      · rintro ⟨hx | hx, hs⟩
        · exact absurd ha (hx ▸ hs)
        · exact ⟨hx, hs⟩
    · simp only [pdUniqueAux, if_neg ha, List.mem_cons, ih]
      constructor
      · rintro (rfl | ⟨hx, hs⟩)
        · exact ⟨Or.inl rfl, ha⟩
        · exact ⟨Or.inr hx, fun h => hs (Or.inr h)⟩
      · rintro ⟨rfl | hx, hs⟩
        · exact Or.inl rfl
        · by_cases hxa : x = a
          · exact Or.inl hxa
          · exact Or.inr ⟨hx, fun h => h.elim hxa hs⟩

theorem mem_pdUnique {x : Int} {l : List Int} : x ∈ pdUnique l ↔ x ∈ l := by
  simp [pdUnique, mem_pdUniqueAux]

theorem mem_pdHead {x : α} {n : Int} {l : List α} (h : x ∈ pdHead n l) : x ∈ l := by
  unfold pdHead at h
  split at h <;> exact (List.take_sublist _ _).mem h

theorem mem_pdSortValuesDescBy {x : α} {key : α → ℚ} {l : List α} :
    x ∈ pdSortValuesDescBy key l ↔ x ∈ l := by
  unfold pdSortValuesDescBy
  rw [List.mem_reverse, List.mem_insertionSort]

theorem pairwise_of_mem_rel {R : α → α → Prop} :
    ∀ {l : List α}, (∀ x ∈ l, ∀ y ∈ l, R x y) → l.Pairwise R
  | [], _ => List.Pairwise.nil
  | a :: l, h =>
    List.Pairwise.cons (fun y hy => h a (List.mem_cons_self a l) y (List.mem_cons_of_mem a hy))
      (pairwise_of_mem_rel fun x hx y hy =>
        h x (List.mem_cons_of_mem a hx) y (List.mem_cons_of_mem a hy))

theorem sorted_pdSortValuesDescBy (key : α → ℚ) (l : List α) :
    (pdSortValuesDescBy key l).Pairwise (fun a b => key b ≤ key a) := by
  haveI : IsTotal α (fun a b => key a ≤ key b) := ⟨fun a b => le_total _ _⟩
  haveI : IsTrans α (fun a b => key a ≤ key b) := ⟨fun _ _ _ h1 h2 => le_trans h1 h2⟩
  have hs := List.sorted_insertionSort (fun a b => key a ≤ key b) l
  unfold pdSortValuesDescBy
  exact List.pairwise_reverse.mpr hs

theorem pairwise_pdHead {R : α → α → Prop} {n : Int} {l : List α}
    (h : l.Pairwise R) : (pdHead n l).Pairwise R := by
  unfold pdHead
  split <;> exact List.Pairwise.sublist (List.take_sublist _ _) h

theorem pairwise_flatMap_of_key {α β : Type} (key : α → ℚ) (key' : β → ℚ)
    {l : List α} {f : α → List β}
    (hl : l.Pairwise (fun a b => key b ≤ key a))
    (hf : ∀ a ∈ l, ∀ b ∈ f a, key' b = key a) :
    (l.flatMap f).Pairwise (fun x y => key' y ≤ key' x) := by
  induction l with
  | nil => simp
  | cons a l ih =>
    rw [List.flatMap_cons, List.pairwise_append]
    rcases List.pairwise_cons.mp hl with ⟨hhead, htail⟩
    refine ⟨?_, ?_, ?_⟩
    · refine pairwise_of_mem_rel fun x hx y hy => ?_
      rw [hf a (List.mem_cons_self a l) x hx, hf a (List.mem_cons_self a l) y hy]
    · exact ih htail (fun a' ha' => hf a' (List.mem_cons_of_mem a ha'))
    · intro x hx y hy
      rcases List.mem_flatMap.mp hy with ⟨a', ha', hy'⟩
      rw [hf a (List.mem_cons_self a l) x hx, hf a' (List.mem_cons_of_mem a ha') y hy']
      exact hhead a' ha'

theorem length_flatMap_le_one {α β : Type} {l : List α} {f : α → List β}
    (hf : ∀ a ∈ l, (f a).length ≤ 1) : (l.flatMap f).length ≤ l.length := by
  induction l with
  | nil => simp
  | cons a l ih =>
    rw [List.flatMap_cons, List.length_append, List.length_cons]
    have h1 := hf a (List.mem_cons_self a l)
    have h2 := ih (fun a' ha' => hf a' (List.mem_cons_of_mem a ha'))
    omega

theorem mem_finalRows {r : Recommender} {recs : List RecRow} {n : Int} {row : OutRow}
    (h : row ∈ finalRows r recs n) :
    ∃ rr ∈ recs, row.item_id = rr.item_id ∧ row.cf_score = rr.cf_score ∧
      row.cb_score = rr.cb_score ∧ row.hybrid_score = rr.hybrid_score := by
  unfold finalRows at h
  rcases List.mem_flatMap.mp h with ⟨rr, hrr, hrow⟩
  rcases List.mem_map.mp hrow with ⟨it, _, heq⟩
  refine ⟨rr, mem_pdSortValuesDescBy.mp (mem_pdHead hrr), ?_⟩
  rw [← heq]
  exact ⟨rfl, rfl, rfl, rfl⟩

theorem finalRows_sorted (r : Recommender) (recs : List RecRow) (n : Int) :
    (finalRows r recs n).Pairwise (fun a b => b.hybrid_score ≤ a.hybrid_score) := by
  unfold finalRows
  refine pairwise_flatMap_of_key (fun row : RecRow => row.hybrid_score)
    (fun row : OutRow => row.hybrid_score)
    (pairwise_pdHead (sorted_pdSortValuesDescBy _ _)) ?_
  intro rr _ row hrow
  rcases List.mem_map.mp hrow with ⟨it, _, heq⟩
  rw [← heq]

theorem mem_combineRecs_nil {r : Recommender} {cf : List (Int × ℚ)} {rr : RecRow}
    (h : rr ∈ combineRecs r cf []) :
    ∃ p ∈ cf, rr = (⟨p.1, some p.2, none, p.2⟩ : RecRow) := by
  unfold combineRecs at h
  simp only [List.isEmpty_nil, if_true] at h
  rcases List.mem_map.mp h with ⟨p, hp, heq⟩
  exact ⟨p, hp, heq.symm⟩

theorem mem_combineRecs_cons {r : Recommender} {cf cb : List (Int × ℚ)} {rr : RecRow}
    (hcb : cb ≠ []) (h : rr ∈ combineRecs r cf cb) :
    ∃ m ∈ outerMerge cf cb, rr = (⟨m.item_id, m.cf_score, m.cb_score,
      r.alpha * m.cf_score.getD 0 + (1 - r.alpha) * m.cb_score.getD 0⟩ : RecRow) := by
  unfold combineRecs at h
  rw [if_neg (by simpa [List.isEmpty_iff] using hcb)] at h
  rcases List.mem_map.mp h with ⟨m, hm, heq⟩
  exact ⟨m, hm, heq.symm⟩

theorem mem_cfRecs {r : Recommender} {u : Int} {p : Int × ℚ} (hp : p ∈ cfRecs r u) :
    p.2 = r.cf_model.predict u p.1 ∧ p.1 ∈ r.item_data.map Item.item_id := by
  unfold cfRecs at hp
  rcases List.mem_map.mp hp with ⟨iid, hiid, heq⟩
  rw [← heq]
  exact ⟨rfl, mem_pdUnique.mp hiid⟩

theorem outerMerge_cf_of_keys {left right : List (Int × ℚ)} {m : MergedRow} {g : Int → ℚ}
    (hm : m ∈ outerMerge left right)
    (hkeys : ∀ k ∈ right.map Prod.fst, k ∈ left.map Prod.fst)
    (hval : ∀ p ∈ left, p.2 = g p.1) :
    m.cf_score = some (g m.item_id) := by
  unfold outerMerge at hm
  rcases List.mem_flatMap.mp hm with ⟨k, hk, hmk⟩
  have hkmem : k ∈ left.map Prod.fst := by
    rw [List.mem_insertionSort, mem_pdUnique, List.mem_append] at hk
    rcases hk with hk | hk
    · exact hk
    · exact hkeys k hk
  rcases List.mem_map.mp hkmem with ⟨p, hp, hpk⟩
  have hfil : p ∈ left.filter (fun p => p.1 == k) :=
    List.mem_filter.mpr ⟨hp, by simp [hpk]⟩
  have hne : (left.filter (fun p => p.1 == k)).isEmpty = false := by
    rw [List.isEmpty_eq_false]
    intro hnil
    rw [hnil] at hfil
    exact List.not_mem_nil p hfil
  rw [hne] at hmk
  simp only [Bool.false_eq_true, if_false] at hmk
  split at hmk
  · rcases List.mem_map.mp hmk with ⟨q, hq, heq⟩
    rcases List.mem_filter.mp hq with ⟨hqmem, hqk⟩
    have : q.1 = k := by simpa using hqk
    rw [← heq]
    simp [hval q hqmem, this]
  · rcases List.mem_flatMap.mp hmk with ⟨lp, hlp, hm2⟩
    rcases List.mem_map.mp hm2 with ⟨rp, _, heq⟩
    rcases List.mem_filter.mp hlp with ⟨hlpmem, hlpk⟩
    have : lp.1 = k := by simpa using hlpk
    rw [← heq]
    simp [hval lp hlpmem, this]

theorem pairwise_simLex_orderedInsert {a : Nat × ℚ} {l : List (Nat × ℚ)}
    (hl : l.Pairwise simLex) (ha : ∀ b ∈ l, a.1 < b.1) :
    (List.orderedInsert (fun x y => y.2 ≤ x.2) a l).Pairwise simLex := by
  induction l with
  | nil => simp [List.orderedInsert]
  | cons b l ih =>
    rcases List.pairwise_cons.mp hl with ⟨hb, hl'⟩
    by_cases h : b.2 ≤ a.2
    · rw [List.orderedInsert, if_pos h]
      refine List.Pairwise.cons ?_ hl
      intro x hx
      rcases List.mem_cons.mp hx with rfl | hx
      · rcases lt_or_eq_of_le h with h' | h'
        · exact Or.inl h'
        · exact Or.inr ⟨h'.symm, ha _ (List.mem_cons_self _ _)⟩
      · have hbx := hb x hx
        have hx2 : x.2 ≤ b.2 := by
          rcases hbx with h' | ⟨h', _⟩
          · exact le_of_lt h'
          · exact le_of_eq h'.symm
        rcases lt_or_eq_of_le (le_trans hx2 h) with h' | h'
        · exact Or.inl h'
        · exact Or.inr ⟨h'.symm, ha _ (List.mem_cons_of_mem _ hx)⟩
    · rw [List.orderedInsert, if_neg h]
      refine List.Pairwise.cons ?_ (ih hl' (fun b' hb' => ha _ (List.mem_cons_of_mem _ hb')))
      intro x hx
      rcases (List.mem_orderedInsert _).mp hx with rfl | hx
      · exact Or.inl (lt_of_not_le h)
      · exact hb x hx

theorem pairwise_simLex_pySortedDescBy {l : List (Nat × ℚ)}
    (hl : l.Pairwise (fun a b => a.1 < b.1)) :
    (pySortedDescBy (fun p => p.2) l).Pairwise simLex := by
  induction l with
  | nil => simp [pySortedDescBy, List.insertionSort]
  | cons a l ih =>
    rcases List.pairwise_cons.mp hl with ⟨ha, hl'⟩
    unfold pySortedDescBy at ih ⊢
    rw [List.insertionSort]
    refine pairwise_simLex_orderedInsert (ih hl') ?_
    intro b hb
    exact ha b ((List.mem_insertionSort _).mp hb)

theorem pySliceFrom1_sublist (l : List α) (stop : Int) :
    (pySliceFrom1 l stop).Sublist (l.drop 1) := by
  unfold pySliceFrom1
  rw [List.drop_take]
  exact List.take_sublist _ _

theorem length_pySliceFrom1 {l : List α} {n : Int} (hn : 0 ≤ n) :
    (pySliceFrom1 l (n + 1)).length = min n.toNat (l.length - 1) := by
  unfold pySliceFrom1
  rw [if_neg (by omega)]
  simp only [List.length_drop, List.length_take]
  omega

theorem length_filter_item_le_one {l : List Item} {k : Int}
    (h : (l.map Item.item_id).Nodup) :
    (l.filter (fun it => it.item_id == k)).length ≤ 1 := by
  induction l with
  | nil => simp
  | cons a l ih =>
    rw [List.map_cons, List.nodup_cons] at h
    by_cases hak : a.item_id = k
    · rw [List.filter_cons_of_pos (by simpa using hak)]
      have hnil : l.filter (fun it => it.item_id == k) = [] := by
        rw [List.filter_eq_nil_iff]
        intro b hb hbk
        apply h.1
        have hbid : b.item_id = a.item_id := by
          have h2 : b.item_id = k := by simpa using hbk
          rw [h2, hak]
        exact List.mem_map.mpr ⟨b, hb, hbid⟩
      rw [hnil]
      simp
    · rw [List.filter_cons_of_neg (by simpa using hak)]
      exact ih h.2

theorem length_finalRows_le {r : Recommender} (hids : (r.item_data.map Item.item_id).Nodup)
    (recs : List RecRow) {n : Int} (hn : 0 ≤ n) :
    (finalRows r recs n).length ≤ n.toNat := by
  unfold finalRows
  refine le_trans
    (length_flatMap_le_one (fun a _ => by
      rw [List.length_map]
      exact length_filter_item_le_one hids)) ?_
  unfold pdHead
  rw [if_pos hn]
  rw [List.length_take]
  exact min_le_left _ _

/-! ### Claim theorems -/

/-- C2: for every trained recommender instance, `save_model` followed by
`load_model` yields an instance whose `recommend_items(user_id, item_id, n)`
output is identical to the pre-save instance's output for the same
arguments; `load_model` by construction re-runs no training.  This holds
because `recommend_items` reads only `alpha`, `item_data`, `cf_model` and
`cosine_sim`, all of which are in the saved snapshot. -/
theorem c2_save_load_roundtrip (r : Recommender) (u : Int) (iid : Option Int) (n : Int) :
    recommend_items (load_model (save_model r)) u iid n = recommend_items r u iid n := rfl

/-- C7: construction fails with the dedicated alpha `ValueError` (the
specification's ConfigError) for `alpha = -0.1` and `alpha = 1.1` — for
*every* input data, because the check is the first statement of `__init__`,
so nothing is initialized when it fires — and the alpha check passes at the
boundary values `0` and `1`: there construction succeeds whenever the rest
of the pipeline does, i.e. on a nonempty interaction set and a catalog on
which the TF-IDF vectorization finds a nonempty vocabulary. -/
theorem c7_alpha_validation (inter : List Interaction) (items : List Item)
    (fitCF : List Interaction → CFModel)
    (fitT : List Item → Except PyError (TfidfVectorizer × TfidfMatrix))
    (simOf : TfidfMatrix → Nat → Nat → ℚ) :
    (HybridRecommender.init inter items (-1/10) fitCF fitT simOf =
      .error (.valueError "Alpha must be between 0 and 1")) ∧
    (HybridRecommender.init inter items (11/10) fitCF fitT simOf =
      .error (.valueError "Alpha must be between 0 and 1")) ∧
    (∀ ftm, inter ≠ [] → fitT items = .ok ftm →
      HybridRecommender.init inter items 0 fitCF fitT simOf =
      .ok { alpha := 0, interactions := some inter, item_data := items,
            cf_model := fitCF inter, tfidf := ftm.1,
            tfidf_matrix := some ftm.2, cosine_sim := simOf ftm.2 }) ∧
    (∀ ftm, inter ≠ [] → fitT items = .ok ftm →
      HybridRecommender.init inter items 1 fitCF fitT simOf =
      .ok { alpha := 1, interactions := some inter, item_data := items,
            cf_model := fitCF inter, tfidf := ftm.1,
            tfidf_matrix := some ftm.2, cosine_sim := simOf ftm.2 }) := by
  refine ⟨?_, ?_, ?_, ?_⟩
  · unfold HybridRecommender.init
    rw [if_pos (by norm_num)]
  · unfold HybridRecommender.init
    rw [if_pos (by norm_num)]
  · intro ftm hne hfit
    unfold HybridRecommender.init
    rw [if_neg (by norm_num), if_neg (by simpa [List.isEmpty_iff] using hne), hfit]
  · intro ftm hne hfit
    unfold HybridRecommender.init
    rw [if_neg (by norm_num), if_neg (by simpa [List.isEmpty_iff] using hne), hfit]

/-- C7 witness: the alpha validation evaluated at concrete inputs; the
catalog `[⟨1, "space adventure"⟩]` is one on which the real vectorizer
succeeds (vocabulary {adventure, space}), so `fitTfidfSpace` returns
`.ok`. -/
theorem c7_witness :
    ([⟨1, 1, 5⟩] : List Interaction) ≠ [] ∧
    fitTfidfSpace [⟨1, "space adventure"⟩] =
      .ok (⟨["adventure", "space"]⟩, ([[1]] : List (List ℚ))) ∧
    HybridRecommender.init [⟨1, 1, 5⟩] [⟨1, "space adventure"⟩] (-1/10)
        fitCFConst fitTfidfSpace simOfTriv =
      .error (.valueError "Alpha must be between 0 and 1") ∧
    HybridRecommender.init [⟨1, 1, 5⟩] [⟨1, "space adventure"⟩] 0
        fitCFConst fitTfidfSpace simOfTriv =
      .ok { alpha := 0, interactions := some [⟨1, 1, 5⟩],
            item_data := [⟨1, "space adventure"⟩],
            cf_model := fitCFConst [⟨1, 1, 5⟩],
            tfidf := (⟨["adventure", "space"]⟩ : TfidfVectorizer),
            tfidf_matrix := some ([[1]] : List (List ℚ)),
            cosine_sim := simOfTriv ([[1]] : List (List ℚ)) } :=
  ⟨by decide, rfl,
   (c7_alpha_validation [⟨1, 1, 5⟩] [⟨1, "space adventure"⟩]
     fitCFConst fitTfidfSpace simOfTriv).1,
   (c7_alpha_validation [⟨1, 1, 5⟩] [⟨1, "space adventure"⟩]
     fitCFConst fitTfidfSpace simOfTriv).2.2.1
     (⟨["adventure", "space"]⟩, ([[1]] : List (List ℚ))) (by decide) rfl⟩

/-- C4 counterexample: requesting recommendations for a seed item absent from
the catalog fails with Python's generic `IndexError: list index out of
range` (raised by `.tolist()[0]` on an empty match list, line 114), not with
a distinct not-found failure kind: the class defines no such error. -/
theorem c4_counterexample :
    recommend_items exRec1 7 (some 99) 5 =
      Except.error (PyError.indexError "list index out of range") := rfl

/-- C4 amended: for every user and every seed `item_id` absent from the
catalog, `recommend_items` does fail rather than succeed, but with the
undifferentiated `IndexError` above rather than a distinct NotFoundError. -/
theorem c4_amended (r : Recommender) (u iid : Int) (n : Int)
    (habs : ∀ it ∈ r.item_data, it.item_id ≠ iid) :
    recommend_items r u (some iid) n =
      Except.error (PyError.indexError "list index out of range") := by
  have hfind : List.findIdx? (fun it => it.item_id == iid) r.item_data = none := by
    rw [List.findIdx?_eq_none_iff]
    intro it hit
    simpa using habs it hit
  simp [recommend_items, cbExcept, cbRecs, hfind]

/-- C4 witness: the amended behaviour at a concrete absent seed. -/
theorem c4_witness :
    (∀ it ∈ exRec1.item_data, it.item_id ≠ 99) ∧
    recommend_items exRec1 7 (some 99) 5 =
      Except.error (PyError.indexError "list index out of range") :=
  ⟨by decide, c4_amended exRec1 7 99 5 (by decide)⟩

/-- C6 counterexample: construction with an interaction whose rating is 9 —
outside the declared 1-5 scale — succeeds: the class performs no
rating-range validation at all (lines 77-86 only pass the scale to
`surprise.Reader`, which records it without checking).  The catalog
`[⟨1, "space adventure"⟩]` is one on which the vectorizer genuinely
succeeds (vocabulary {adventure, space}), so nothing else fails either. -/
theorem c6_counterexample :
    HybridRecommender.init [⟨1, 1, 9⟩] [⟨1, "space adventure"⟩] (1/2)
        fitCFConst fitTfidfSpace simOfTriv =
      .ok { alpha := 1/2, interactions := some [⟨1, 1, 9⟩],
            item_data := [⟨1, "space adventure"⟩],
            cf_model := fitCFConst [⟨1, 1, 9⟩],
            tfidf := (⟨["adventure", "space"]⟩ : TfidfVectorizer),
            tfidf_matrix := some ([[1]] : List (List ℚ)),
            cosine_sim := simOfTriv ([[1]] : List (List ℚ)) } ∧
    ¬ ((1 : ℚ) ≤ 9 ∧ (9 : ℚ) ≤ 5) := by
  constructor
  · unfold HybridRecommender.init
    rw [if_neg (by norm_num), if_neg (by simp)]
    rfl
  · norm_num

/-- C6 amended: for any in-range `alpha`, construction performs no
rating-range check: on a nonempty interaction set it succeeds whenever the
TF-IDF vectorization does, regardless of rating values.  An empty
interaction set fails with the undifferentiated `ValueError` raised inside
`surprise`'s `train_test_split` — a library crash during the training phase,
not an explicit pre-training `InsufficientDataError` check (and it precedes
the content-based step, so it wins over any vectorizer failure).  A
vectorizer failure (e.g. sklearn's empty-vocabulary `ValueError` for a
catalog with no tokenizable non-stop description) is likewise only
re-raised, not turned into a distinct error kind. -/
theorem c6_amended (inter : List Interaction) (items : List Item) (alpha : ℚ)
    (fitCF : List Interaction → CFModel)
    (fitT : List Item → Except PyError (TfidfVectorizer × TfidfMatrix))
    (simOf : TfidfMatrix → Nat → Nat → ℚ) (h1 : 0 ≤ alpha) (h2 : alpha ≤ 1) :
    (∀ ftm, inter ≠ [] → fitT items = .ok ftm →
      HybridRecommender.init inter items alpha fitCF fitT simOf =
      .ok { alpha := alpha, interactions := some inter, item_data := items,
            cf_model := fitCF inter, tfidf := ftm.1,
            tfidf_matrix := some ftm.2, cosine_sim := simOf ftm.2 }) ∧
    (inter = [] → HybridRecommender.init inter items alpha fitCF fitT simOf =
      .error (.valueError "test_size=0.25 should be less than the number of ratings 0")) ∧
    (∀ e, inter ≠ [] → fitT items = .error e →
      HybridRecommender.init inter items alpha fitCF fitT simOf = .error e) := by
  refine ⟨?_, ?_, ?_⟩
  · intro ftm hne hfit
    unfold HybridRecommender.init
    rw [if_neg (not_not_intro ⟨h1, h2⟩), if_neg (by simpa [List.isEmpty_iff] using hne), hfit]
  · intro he
    subst he
    unfold HybridRecommender.init
    rw [if_neg (not_not_intro ⟨h1, h2⟩)]
    rfl
  · intro e hne hfit
    unfold HybridRecommender.init
    rw [if_neg (not_not_intro ⟨h1, h2⟩), if_neg (by simpa [List.isEmpty_iff] using hne), hfit]

/-- C6 witness: the amended behaviour at concrete inputs.  On the catalog
`[⟨1, "a"⟩]` the real vectorizer raises the empty-vocabulary `ValueError`
(`fitTfidfEmptyVocab`); with an empty interaction set the earlier
`train_test_split` failure fires instead, and with a nonempty one the
vectorizer error propagates unchanged. -/
theorem c6_witness :
    (0 : ℚ) ≤ 1/2 ∧ (1/2 : ℚ) ≤ 1 ∧
    HybridRecommender.init [] [⟨1, "a"⟩] (1/2) fitCFConst fitTfidfEmptyVocab simOfTriv =
      .error (.valueError "test_size=0.25 should be less than the number of ratings 0") ∧
    HybridRecommender.init [⟨1, 1, 9⟩] [⟨1, "a"⟩] (1/2) fitCFConst fitTfidfEmptyVocab simOfTriv =
      .error (.valueError "empty vocabulary; perhaps the documents only contain stop words") :=
  ⟨by norm_num, by norm_num,
   (c6_amended [] [⟨1, "a"⟩] (1/2) fitCFConst fitTfidfEmptyVocab simOfTriv
     (by norm_num) (by norm_num)).2.1 rfl,
   (c6_amended [⟨1, 1, 9⟩] [⟨1, "a"⟩] (1/2) fitCFConst fitTfidfEmptyVocab simOfTriv
     (by norm_num) (by norm_num)).2.2
     (.valueError "empty vocabulary; perhaps the documents only contain stop words")
     (by decide) rfl⟩

theorem recommend_ok_elim {r : Recommender} {u : Int} {iidOpt : Option Int} {n : Int}
    {rows : List OutRow} (h : recommend_items r u iidOpt n = .ok rows) :
    ∃ cb, cbExcept r iidOpt n = .ok cb ∧
      rows = finalRows r (combineRecs r (cfRecs r u) cb) n := by
  unfold recommend_items at h
  cases hc : cbExcept r iidOpt n with
  | error e =>
    rw [hc] at h
    exact absurd h (by simp)
  | ok cb =>
    rw [hc] at h
    exact ⟨cb, rfl, (Except.ok.inj h).symm⟩

/-- C1 counterexample: with no seed item, the code sets
`hybrid_score = cf_score` (line 130) instead of
`alpha * cf_score + (1 - alpha) * cb_score`; at `alpha = 1/2` and a
collaborative score of 4 the returned hybrid score is 4, not 2, refuting the
claimed formula for the no-seed case. -/
theorem c1_counterexample :
    ¬ (∀ rows, recommend_items exRec1 7 none 5 = Except.ok rows →
        ∀ row ∈ rows, row.hybrid_score =
          exRec1.alpha * row.cf_score.getD 0 + (1 - exRec1.alpha) * row.cb_score.getD 0) := by
  intro hclaim
  have h := hclaim [⟨1, some 4, none, 4, "a"⟩] rfl
    ⟨1, some 4, none, 4, "a"⟩ (List.mem_singleton.mpr rfl)
  norm_num [exRec1] at h

/-- C1 amended: when the content-based candidate set is nonempty, every
returned item's `hybrid_score` equals
`alpha * cf_score + (1 - alpha) * cb_score` with missing scores counted as
0 (lines 125-127); but when the candidate set is empty — in particular for
every call without a seed item — the code instead returns
`hybrid_score = cf_score` with no `cb_score` at all (lines 129-130). -/
theorem c1_amended (r : Recommender) (u : Int) (iidOpt : Option Int) (n : Int)
    (rows : List OutRow) (cb : List (Int × ℚ))
    (hcb : cbExcept r iidOpt n = Except.ok cb)
    (h : recommend_items r u iidOpt n = Except.ok rows) :
    ∀ row ∈ rows,
      (cb ≠ [] → row.hybrid_score =
        r.alpha * row.cf_score.getD 0 + (1 - r.alpha) * row.cb_score.getD 0) ∧
      (cb = [] → row.cb_score = none ∧ row.hybrid_score = row.cf_score.getD 0) := by
  intro row hrow
  rcases recommend_ok_elim h with ⟨cb', hcb', hrows⟩
  rw [hcb] at hcb'
  cases Except.ok.inj hcb'
  rw [hrows] at hrow
  rcases mem_finalRows hrow with ⟨rr, hrr, hid, hcf, hcbs, hhyb⟩
  constructor
  · intro hne
    rcases mem_combineRecs_cons hne hrr with ⟨m, _, rfl⟩
    rw [hhyb, hcf, hcbs]
  · intro hnil
    subst hnil
    rcases mem_combineRecs_nil hrr with ⟨p, _, rfl⟩
    rw [hhyb, hcf, hcbs]
    exact ⟨rfl, rfl⟩

/-- C1 witness: the amended statement evaluated on a concrete no-seed call
(empty candidate set branch). -/
theorem c1_witness :
    cbExcept exRec1 none 5 = Except.ok [] ∧
    recommend_items exRec1 7 none 5 = Except.ok [⟨1, some 4, none, 4, "a"⟩] ∧
    (∀ row ∈ [(⟨1, some 4, none, 4, "a"⟩ : OutRow)],
      (([] : List (Int × ℚ)) ≠ [] → row.hybrid_score =
        exRec1.alpha * row.cf_score.getD 0 + (1 - exRec1.alpha) * row.cb_score.getD 0) ∧
      (([] : List (Int × ℚ)) = [] → row.cb_score = none ∧
        row.hybrid_score = row.cf_score.getD 0)) :=
  ⟨rfl, rfl, c1_amended exRec1 7 none 5 _ [] rfl rfl⟩

/-- C5 counterexample: a no-seed call returns rows with *no* `cb_score`
value at all (the frame taken is `cf_recs`, which never acquires a
`cb_score` column, lines 121-122 and 129), rather than rows with
`cb_score = 0`. -/
theorem c5_counterexample :
    ¬ (∀ rows, recommend_items exRec1 42 none 5 = Except.ok rows →
        ∀ row ∈ rows, row.cb_score = some 0) := by
  intro hclaim
  have h := hclaim [⟨1, some 4, none, 4, "a"⟩] rfl
    ⟨1, some 4, none, 4, "a"⟩ (List.mem_singleton.mpr rfl)
  simp at h

/-- C5 amended: a no-seed call with `n = 5` returns at most 5 rows (for a
catalog with unique item ids), ordered by collaborative score descending —
but each row carries *no* content-based score (`cb_score` is absent, not 0),
and its hybrid score equals its collaborative score. -/
theorem c5_amended (r : Recommender) (u : Int) (rows : List OutRow)
    (hids : (r.item_data.map Item.item_id).Nodup)
    (h : recommend_items r u none 5 = Except.ok rows) :
    rows.length ≤ 5 ∧
    (∀ row ∈ rows, row.cb_score = none ∧ row.hybrid_score = row.cf_score.getD 0) ∧
    rows.Pairwise (fun a b => b.cf_score.getD 0 ≤ a.cf_score.getD 0) := by
  rcases recommend_ok_elim h with ⟨cb, hcb, hrows⟩
  have hcbnil : cb = [] := Except.ok.inj hcb.symm
  subst hcbnil
  have hperrow : ∀ row ∈ rows, row.cb_score = none ∧
      row.hybrid_score = row.cf_score.getD 0 := by
    intro row hrow
    rw [hrows] at hrow
    rcases mem_finalRows hrow with ⟨rr, hrr, _, hcf, hcbs, hhyb⟩
    rcases mem_combineRecs_nil hrr with ⟨p, _, rfl⟩
    rw [hhyb, hcf, hcbs]
    exact ⟨rfl, rfl⟩
  refine ⟨?_, hperrow, ?_⟩
  · rw [hrows]
    exact length_finalRows_le hids _ (by norm_num)
  · have hsorted : rows.Pairwise (fun a b => b.hybrid_score ≤ a.hybrid_score) := by
      rw [hrows]
      exact finalRows_sorted r _ 5
    refine hsorted.imp_of_mem ?_
    intro a b ha hb hab
    rw [← (hperrow a ha).2, ← (hperrow b hb).2]
    exact hab

/-- C5 witness: the amended statement evaluated on a concrete no-seed call. -/
theorem c5_witness :
    (exRec1.item_data.map Item.item_id).Nodup ∧
    recommend_items exRec1 42 none 5 = Except.ok [⟨1, some 4, none, 4, "a"⟩] ∧
    (([⟨1, some 4, none, 4, "a"⟩] : List OutRow).length ≤ 5 ∧
     (∀ row ∈ [(⟨1, some 4, none, 4, "a"⟩ : OutRow)],
       row.cb_score = none ∧ row.hybrid_score = row.cf_score.getD 0) ∧
     ([⟨1, some 4, none, 4, "a"⟩] : List OutRow).Pairwise
       (fun a b => b.cf_score.getD 0 ≤ a.cf_score.getD 0)) :=
  ⟨by decide, rfl, c5_amended exRec1 42 _ (by decide) rfl⟩

/-- C9 counterexample: two rows tie at hybrid score 3, and the returned
order is item 2 before item 1 — not item_id ascending.  The code has no
secondary sort key (line 131): pandas' descending sort reverses a stable
ascending argsort, so tied rows come out in reversed frame order, and the
tie order is not deterministic by item id. -/
theorem c9_counterexample :
    ¬ (∀ rows, recommend_items exRec9 5 none 2 = Except.ok rows →
        rows.Pairwise (fun a b => b.hybrid_score ≤ a.hybrid_score ∧
          (a.hybrid_score = b.hybrid_score → a.item_id < b.item_id))) := by
  intro hclaim
  have h := hclaim [⟨2, some 3, none, 3, "b"⟩, ⟨1, some 3, none, 3, "a"⟩] rfl
  rcases List.pairwise_cons.mp h with ⟨hhead, _⟩
  have h2 := hhead _ (List.mem_singleton.mpr rfl)
  have h3 := h2.2 rfl
  norm_num at h3

/-- C9 amended: the returned list is sorted descending by `hybrid_score`;
the relative order of rows with equal hybrid scores is *not* specified by
the code (no secondary key), so no item_id tie-break holds. -/
theorem c9_amended (r : Recommender) (u : Int) (iidOpt : Option Int) (n : Int)
    (rows : List OutRow) (h : recommend_items r u iidOpt n = Except.ok rows) :
    rows.Pairwise (fun a b => b.hybrid_score ≤ a.hybrid_score) := by
  rcases recommend_ok_elim h with ⟨cb, _, hrows⟩
  rw [hrows]
  exact finalRows_sorted r _ n

/-- C9 witness: the amended sortedness evaluated on the concrete tied
output. -/
theorem c9_witness :
    recommend_items exRec9 5 none 2 =
      Except.ok [⟨2, some 3, none, 3, "b"⟩, ⟨1, some 3, none, 3, "a"⟩] ∧
    ([⟨2, some 3, none, 3, "b"⟩, ⟨1, some 3, none, 3, "a"⟩] : List OutRow).Pairwise
      (fun a b => b.hybrid_score ≤ a.hybrid_score) :=
  ⟨rfl, c9_amended exRec9 5 none 2 _ rfl⟩

/-- C8 counterexample: `head(-1)` on a frame keeps all rows but the last
(pandas semantics), so `recommend_items` with `n = -1` on a two-item catalog
returns one row — not the empty result the claim requires for `n ≤ 0`, and
its length 1 is not `≤ n`. -/
theorem c8_counterexample :
    recommend_items exRec9 5 (some 1) (-1) =
      Except.ok [⟨2, some 3, none, 3, "b"⟩] ∧ ¬ ((1 : Int) ≤ -1) := by
  constructor
  · rfl
  · norm_num

/-- C8 amended: for a catalog with unique item ids, every successful
`recommend_items` call with `n ≥ 0` returns at most `n` rows (hence the
empty list for `n = 0`), and a no-seed call on an empty catalog returns the
empty list without raising; for `n < 0` the `head(-1)`-style slicing keeps
all but the last `|n|` rows instead, and a seeded call on an empty catalog
raises the seed-lookup `IndexError`. -/
theorem c8_amended (r : Recommender) (u : Int) (iidOpt : Option Int) (n : Int)
    (hids : (r.item_data.map Item.item_id).Nodup) :
    (∀ rows, recommend_items r u iidOpt n = Except.ok rows →
      0 ≤ n → (rows.length : Int) ≤ n) ∧
    (r.item_data = [] → recommend_items r u none n = Except.ok []) := by
  constructor
  · intro rows h hn
    rcases recommend_ok_elim h with ⟨cb, _, hrows⟩
    rw [hrows]
    have hle := length_finalRows_le hids (combineRecs r (cfRecs r u) cb) hn
    omega
  · intro hempty
    have h1 : cfRecs r u = [] := by
      simp [cfRecs, hempty, pdUnique, pdUniqueAux]
    simp only [recommend_items, cbExcept]
    rw [h1]
    simp only [combineRecs, List.isEmpty_nil, if_true, List.map_nil]
    unfold finalRows pdSortValuesDescBy pdHead
    simp [List.insertionSort]

/-- C8 witness: the amended statement evaluated at a concrete seeded call. -/
theorem c8_witness :
    (exRec9.item_data.map Item.item_id).Nodup ∧
    ((∀ rows, recommend_items exRec9 5 (some 1) 2 = Except.ok rows →
        (0 : Int) ≤ 2 → (rows.length : Int) ≤ 2) ∧
     (exRec9.item_data = [] → recommend_items exRec9 5 none 2 = Except.ok [])) :=
  ⟨by decide, c8_amended exRec9 5 (some 1) 2 (by decide)⟩


theorem mem_pySortedDescBy {x : α} {key : α → ℚ} {l : List α} :
    x ∈ pySortedDescBy key l ↔ x ∈ l :=
  List.mem_insertionSort _

theorem cbRecs_keys {r : Recommender} {iid : Int} {n : Int} {cb : List (Int × ℚ)}
    (h : cbRecs r iid n = Except.ok cb) :
    ∀ k ∈ cb.map Prod.fst, k ∈ r.item_data.map Item.item_id := by
  cases hf : List.findIdx? (fun it => it.item_id == iid) r.item_data with
  | none =>
    unfold cbRecs at h
    rw [hf] at h
    exact absurd h (by simp)
  | some idx =>
    unfold cbRecs at h
    rw [hf] at h
    intro k hk
    rw [← Except.ok.inj h] at hk
    rcases List.mem_map.mp hk with ⟨q, hq, rfl⟩
    rcases List.mem_map.mp hq with ⟨p, hp, rfl⟩
    have h2 : p ∈ pySortedDescBy (fun p : Nat × ℚ => p.2)
        ((List.range r.item_data.length).map (fun j => (j, r.cosine_sim idx j))) :=
      (List.drop_sublist _ _).mem ((pySliceFrom1_sublist _ _).mem hp)
    have h3 := mem_pySortedDescBy.mp h2
    rcases List.mem_map.mp h3 with ⟨j, hj, rfl⟩
    have hjlt := List.mem_range.mp hj
    rw [List.getD_eq_getElem _ _ hjlt]
    exact List.mem_map.mpr ⟨_, List.getElem_mem hjlt, rfl⟩

/-- C10: in every successful seeded `recommend_items` call, the
content-based candidate ids all come from the catalog, which the
collaborative loop scores in full (line 106), so after the outer join no row
has a missing `cf_score`: the `fillna(0)` default for `cf_score` is never
exercised, and every returned row's `cf_score` is exactly the collaborative
model's prediction for `(user_id, item)`. -/
theorem c10_cf_score (r : Recommender) (u iid : Int) (n : Int) (rows : List OutRow)
    (h : recommend_items r u (some iid) n = Except.ok rows) :
    ∀ row ∈ rows, row.cf_score = some (r.cf_model.predict u row.item_id) := by
  intro row hrow
  rcases recommend_ok_elim h with ⟨cb, hcb, hrows⟩
  have hcbr : cbRecs r iid n = Except.ok cb := hcb
  rw [hrows] at hrow
  rcases mem_finalRows hrow with ⟨rr, hrr, hid, hcf, _, _⟩
  by_cases hcbnil : cb = []
  · subst hcbnil
    rcases mem_combineRecs_nil hrr with ⟨p, hp, rfl⟩
    rcases mem_cfRecs hp with ⟨hval, _⟩
    rw [hcf, hid]
    exact congrArg some hval
  · rcases mem_combineRecs_cons hcbnil hrr with ⟨m, hm, rfl⟩
    have hcfm : m.cf_score = some (r.cf_model.predict u m.item_id) := by
      refine outerMerge_cf_of_keys hm ?_ ?_
      · intro k hk
        have hcat := cbRecs_keys hcbr k hk
        refine List.mem_map.mpr ⟨(k, r.cf_model.predict u k), ?_, rfl⟩
        unfold cfRecs
        exact List.mem_map.mpr ⟨k, mem_pdUnique.mpr hcat, rfl⟩
      · intro p hp
        exact (mem_cfRecs hp).1
    rw [hcf, hid]
    exact hcfm

/-- C10 witness: the collaborative scores in a concrete seeded call are the
model's predictions (here `predict u i = i`). -/
theorem c10_witness :
    recommend_items exRec10 7 (some 1) 5 =
      Except.ok [⟨2, some 2, some 0, 1, "b"⟩, ⟨1, some 1, none, 1/2, "a"⟩] ∧
    (∀ row ∈ [(⟨2, some 2, some 0, 1, "b"⟩ : OutRow), ⟨1, some 1, none, 1/2, "a"⟩],
      row.cf_score = some (exRec10.cf_model.predict 7 row.item_id)) := by
  have h : recommend_items exRec10 7 (some 1) 5 =
      Except.ok [⟨2, some 2, some 0, 1, "b"⟩, ⟨1, some 1, none, 1/2, "a"⟩] := by
    norm_num [recommend_items, cbExcept, cbRecs, cfRecs, combineRecs, finalRows, outerMerge,
      pdUnique, pdUniqueAux, pySliceFrom1, pySortedDescBy, pdSortValuesDescBy, pdHead,
      List.insertionSort, List.orderedInsert, List.findIdx?, exRec10]
    rfl
  exact ⟨h, c10_cf_score exRec10 7 1 5 _ h⟩

/-- C3 counterexample: for a seed item whose description is empty, the whole
similarity row — including the self-similarity — is 0, so the seed does not
sort first and `sim_scores[1:n+1]` (line 117) fails to remove it: the lookup
for item 2 returns item 2 itself. -/
theorem c3_counterexample :
    ¬ (∀ l, cbRecs exRec3 2 1 = Except.ok l → ∀ p ∈ l, p.1 ≠ 2) := by
  intro hclaim
  exact hclaim [(2, 0)] rfl (2, 0) (List.mem_singleton.mpr rfl) rfl

/-- C3 amended: for a seed item at catalog position `idx` and `n ≥ 0`, the
lookup returns exactly `min n (catalog_size - 1)` entries, in descending
similarity order with ties broken by ascending catalog position (the sort at
line 116 is stable), each entry carrying the similarity-row value of its
position; but the queried item is only guaranteed absent when its
self-similarity is *strictly* maximal in its row (then it sorts first and
the `[1:n+1]` slice removes exactly it) — not unconditionally, as the
counterexample shows. -/
theorem c3_amended (r : Recommender) (iid : Int) (n : Int) (idx : Nat) (hn : 0 ≤ n)
    (hidx : List.findIdx? (fun it => it.item_id == iid) r.item_data = some idx) :
    ∃ ps : List (Nat × ℚ),
      cbRecs r iid n = Except.ok (ps.map (fun p =>
        ((r.item_data.getD p.1 { item_id := 0, description := "" }).item_id, p.2))) ∧
      ps.length = min n.toNat (r.item_data.length - 1) ∧
      ps.Pairwise simLex ∧
      (∀ p ∈ ps, p.2 = r.cosine_sim idx p.1 ∧ p.1 < r.item_data.length) ∧
      ((∀ j, j < r.item_data.length → j ≠ idx → r.cosine_sim idx j < r.cosine_sim idx idx) →
        ∀ p ∈ ps, p.1 ≠ idx) := by
  set sims := (List.range r.item_data.length).map (fun j => (j, r.cosine_sim idx j)) with hsims
  set sorted := pySortedDescBy (fun p : Nat × ℚ => p.2) sims with hsorted
  refine ⟨pySliceFrom1 sorted (n + 1), ?_, ?_, ?_, ?_, ?_⟩
  · unfold cbRecs
    rw [hidx]
  · rw [length_pySliceFrom1 hn]
    have hlen : sorted.length = r.item_data.length := by
      rw [hsorted]
      unfold pySortedDescBy
      rw [List.length_insertionSort, hsims, List.length_map, List.length_range]
    rw [hlen]
  · refine List.Pairwise.sublist
      ((pySliceFrom1_sublist sorted (n + 1)).trans (List.drop_sublist 1 sorted)) ?_
    rw [hsorted]
    refine pairwise_simLex_pySortedDescBy ?_
    rw [hsims, List.pairwise_map]
    exact List.pairwise_lt_range _
  · intro p hp
    have hmem : p ∈ sims := mem_pySortedDescBy.mp
      ((List.drop_sublist 1 sorted).mem ((pySliceFrom1_sublist sorted (n + 1)).mem hp))
    rw [hsims] at hmem
    rcases List.mem_map.mp hmem with ⟨j, hj, rfl⟩
    exact ⟨rfl, List.mem_range.mp hj⟩
  · intro hmax p hp hpidx
    have hpairs : sorted.Pairwise simLex := by
      rw [hsorted]
      refine pairwise_simLex_pySortedDescBy ?_
      rw [hsims, List.pairwise_map]
      exact List.pairwise_lt_range _
    have hperm : sorted.Perm sims := by
      rw [hsorted]
      exact List.perm_insertionSort _ _
    have hnod : (sorted.map Prod.fst).Nodup := by
      refine ((hperm.map Prod.fst).nodup_iff).mpr ?_
      rw [hsims, List.map_map]
      rw [show (Prod.fst ∘ fun j => (j, r.cosine_sim idx j)) = fun j : Nat => j from rfl]
      simpa using List.nodup_range _
    cases hsort : sorted with
    | nil =>
      rw [hsort] at hp
      simp [pySliceFrom1] at hp
    | cons h0 t =>
      have hpt : p ∈ t := by
        have h1 := (pySliceFrom1_sublist sorted (n + 1)).mem hp
        rw [hsort] at h1
        simpa using h1
      have hh0p : simLex h0 p := by
        rw [hsort] at hpairs
        exact (List.pairwise_cons.mp hpairs).1 p hpt
      have hh0mem : h0 ∈ sims := by
        refine hperm.mem_iff.mp ?_
        rw [hsort]
        exact List.mem_cons_self _ _
      rw [hsims] at hh0mem
      rcases List.mem_map.mp hh0mem with ⟨j0, hj0, hh0⟩
      have hpmem : p ∈ sims := by
        refine hperm.mem_iff.mp ?_
        rw [hsort]
        exact List.mem_cons_of_mem _ hpt
      rw [hsims] at hpmem
      rcases List.mem_map.mp hpmem with ⟨jp, _, hpeq⟩
      have hp2 : p.2 = r.cosine_sim idx idx := by
        rw [← hpeq] at hpidx ⊢
        simp only at hpidx ⊢
        rw [hpidx]
      have hj0ne : j0 ≠ idx := by
        rw [hsort, List.map_cons, List.nodup_cons] at hnod
        intro hje
        apply hnod.1
        have : h0.1 = p.1 := by
          rw [← hh0, hpidx, hje]
        rw [this]
        exact List.mem_map.mpr ⟨p, hpt, rfl⟩
      have hlt : r.cosine_sim idx j0 < r.cosine_sim idx idx :=
        hmax j0 (List.mem_range.mp hj0) hj0ne
      have hh02 : h0.2 = r.cosine_sim idx j0 := by
        rw [← hh0]
      rcases hh0p with hcase | ⟨hcase, _⟩
      · rw [hp2, hh02] at hcase
        exact absurd (lt_trans hcase hlt) (lt_irrefl _)
      · rw [hp2, hh02] at hcase
        exact absurd (hcase ▸ hlt) (lt_irrefl _)

/-- C3 witness: the amended statement evaluated for seed item 1 of the
two-item catalog (its self-similarity 1 is strictly maximal, so item 1 is
excluded and the single other item is returned). -/
theorem c3_witness :
    (0 : Int) ≤ 1 ∧
    List.findIdx? (fun it => it.item_id == 1) exRec3.item_data = some 0 ∧
    (∃ ps : List (Nat × ℚ),
      cbRecs exRec3 1 1 = Except.ok (ps.map (fun p =>
        ((exRec3.item_data.getD p.1 { item_id := 0, description := "" }).item_id, p.2))) ∧
      ps.length = min (1 : Int).toNat (exRec3.item_data.length - 1) ∧
      ps.Pairwise simLex ∧
      (∀ p ∈ ps, p.2 = exRec3.cosine_sim 0 p.1 ∧ p.1 < exRec3.item_data.length) ∧
      ((∀ j, j < exRec3.item_data.length → j ≠ 0 →
          exRec3.cosine_sim 0 j < exRec3.cosine_sim 0 0) →
        ∀ p ∈ ps, p.1 ≠ 0)) :=
  ⟨by norm_num, rfl, c3_amended exRec3 1 1 0 (by norm_num) rfl⟩
